import Mathlib

/-!
Verification of the AQL client wrapper (`arango/aql.py`).

The module builds HTTP request descriptors and interprets HTTP responses.
We embed it shallowly: JSON values are an inductive type, Python dicts are
association lists with unique-key insert/lookup/remove operations, each
`(request, handler)` pair of the source becomes a request-building function
and a handler function from a response to `Except Err α` (a raised Python
exception becomes an `Except.error`).
-/

set_option autoImplicit false

/-- JSON values, the decoded bodies exchanged with the server. `null` also
stands for an absent body (Python `None`). -/
inductive Json where
  | null
  | bool (b : Bool)
  | num (n : Int)
  | str (s : String)
  | arr (elts : List Json)
  | obj (fields : List (String × Json))

/-- Structural equality of JSON values, the embedding of Python `==` on
decoded JSON (used for dict keys). -/
def jeq : Json → Json → Bool
  | .null, .null => true
  | .bool a, .bool b => a == b
  | .num a, .num b => a == b
  | .str a, .str b => a == b
  | .arr xs, .arr ys => jeqList xs ys
  | .obj xs, .obj ys => jeqFields xs ys
  | _, _ => false
where
  jeqList : List Json → List Json → Bool
    | [], [] => true
    | x :: xs, y :: ys => jeq x y && jeqList xs ys
    | _, _ => false
  jeqFields : List (String × Json) → List (String × Json) → Bool
    | [], [] => true
    | x :: xs, y :: ys => x.1 == y.1 && jeq x.2 y.2 && jeqFields xs ys
    | _, _ => false

/-- Python truthiness of a JSON value (`bool(x)`): `None`, `False`, `0`,
empty string, empty list and empty dict are falsy. -/
def Json.truthy : Json → Bool
  | .null => false
  | .bool b => b
  | .num n => n != 0
  | .str s => !s.isEmpty
  | .arr xs => !xs.isEmpty
  | .obj kvs => !kvs.isEmpty

/-- Lookup of a string key in a Python dict with string keys
(`d[k]` when present, first occurrence). -/
def getKey : List (String × Json) → String → Option Json
  | [], _ => none
  | kv :: rest, k => if kv.1 = k then some kv.2 else getKey rest k

/-- Membership test for a string key (`k in d`). -/
def hasKey (kvs : List (String × Json)) (k : String) : Bool :=
  (getKey kvs k).isSome

/-- Removal of a string key (`d.pop(k, None)`; dict keys are unique, so
removing every entry at the key embeds removing its single entry). -/
def popKey : List (String × Json) → String → List (String × Json)
  | [], _ => []
  | kv :: rest, k => if kv.1 = k then popKey rest k else kv :: popKey rest k

/-- Lookup of a string key in a JSON value when it is an object. -/
def Json.get? : Json → String → Option Json
  | .obj kvs, k => getKey kvs k
  | _, _ => none

/-- Nested lookup: key `k1`, then key `k2` inside the resulting object. -/
def Json.get2? (j : Json) (k1 k2 : String) : Option Json :=
  (j.get? k1).bind (fun o => o.get? k2)

/-- Key list of a JSON object, `none` when the value is not an object. -/
def Json.keys? : Json → Option (List String)
  | .obj kvs => some (kvs.map Prod.fst)
  | _ => none

/-- An HTTP response as the transport delivers it to a handler: status code
plus decoded JSON body. -/
structure Response where
  status_code : Nat
  body : Json

/-- Classified errors raised by the handlers, one constructor per exception
class of `arango.exceptions` used in `aql.py`, plus the unclassified Python
`KeyError` and `TypeError` a handler can hit while indexing a body. -/
inductive Err where
  | AQLQueryExplainError (res : Response)
  | AQLQueryValidateError (res : Response)
  | AQLQueryExecuteError (res : Response)
  | AQLFunctionCreateError (res : Response)
  | AQLFunctionDeleteError (res : Response)
  | AQLFunctionsListError (res : Response)
  | AQLCacheClearError (res : Response)
  | AQLCacheConfigureError (res : Response)
  | AQLCacheGetPropertiesError (res : Response)
  | keyError (k : String)
  | typeError

/-- Python `body[k]`: the value at a string key of a JSON body; `KeyError`
when the key is absent, `TypeError` when the body is not a mapping. -/
def dictIndex (body : Json) (k : String) : Except Err Json :=
  match body with
  | .obj kvs =>
    match getKey kvs k with
    | some v => .ok v
    | none => .error (.keyError k)
  | _ => .error .typeError

/-- Modelled from the spec: `arango.utils.HTTP_OK` (the module `arango/utils.py`
is not part of the sources), the fixed success-status set 200, 201, 202, 203,
204, 205, 206. -/
def HTTP_OK : List Nat := [200, 201, 202, 203, 204, 205, 206]

/-- A request descriptor as `arango.request.Request` records it: method,
endpoint, query parameters and JSON body (`Json.null` = no body). -/
structure Request where
  method : String
  endpoint : String
  params : List (String × Json) := []
  data : Json := Json.null

namespace AQL

/-- Request built by `AQL.explain` (aql.py lines 61-71): the `options` dict
always carries `allPlans`, and carries `maxNumberOfPlans` / `optimizer` only
when `max_plans` / `opt_rules` were set. -/
def explainRequest (query : String) (all_plans : Bool) (max_plans : Option Int)
    (opt_rules : Option (List String)) : Request :=
  let options : List (String × Json) := [("allPlans", .bool all_plans)]
  let options : List (String × Json) :=
    match max_plans with
    | some mp => options ++ [("maxNumberOfPlans", .num mp)]
    | none => options
  let options : List (String × Json) :=
    match opt_rules with
    | some rules => options ++ [("optimizer", .obj [("rules", .arr (rules.map .str))])]
    | none => options
  { method := "post", endpoint := "/_api/explain",
    data := .obj [("query", .str query), ("options", .obj options)] }

/-- Handler of `AQL.explain` (aql.py lines 73-76): raise on non-success
status, otherwise return `body['plan' if 'plan' in body else 'plans']`.
A non-mapping body makes the membership test and indexing fail. -/
def explainHandler (res : Response) : Except Err Json :=
  if res.status_code ∈ HTTP_OK then
    match res.body with
    | .obj kvs =>
      if hasKey kvs "plan" then dictIndex res.body "plan" else dictIndex res.body "plans"
    | _ => .error .typeError
  else .error (.AQLQueryExplainError res)

/-- Request built by `AQL.validate` (aql.py lines 91-95). -/
def validateRequest (query : String) : Request :=
  { method := "post", endpoint := "/_api/query",
    data := .obj [("query", .str query)] }

/-- Handler of `AQL.validate` (aql.py lines 97-102): raise on non-success
status, otherwise pop `code` and `error` from the body and return it. -/
def validateHandler (res : Response) : Except Err Json :=
  if res.status_code ∈ HTTP_OK then
    match res.body with
    | .obj kvs => .ok (.obj (popKey (popKey kvs "code") "error"))
    | _ => .error .typeError
  else .error (.AQLQueryValidateError res)

/-- Request built by `AQL.execute` (aql.py lines 134-156): `query` and
`count` always, `batchSize` / `ttl` / `bindVars` when set, and `options`
exactly when at least one of `full_count`, `max_plans`, `optimizer_rules`
was set (an empty `options` dict is falsy and omitted). -/
def executeRequest (query : String) (count : Bool) (batch_size ttl : Option Int)
    (bind_vars : Option (List (String × Json))) (full_count : Option Bool)
    (max_plans : Option Int) (optimizer_rules : Option (List String)) : Request :=
  let options : List (String × Json) := []
  let options : List (String × Json) :=
    match full_count with
    | some fc => options ++ [("fullCount", .bool fc)]
    | none => options
  let options : List (String × Json) :=
    match max_plans with
    | some mp => options ++ [("maxNumberOfPlans", .num mp)]
    | none => options
  let options : List (String × Json) :=
    match optimizer_rules with
    | some rules => options ++ [("optimizer", .obj [("rules", .arr (rules.map .str))])]
    | none => options
  let data : List (String × Json) := [("query", .str query), ("count", .bool count)]
  let data : List (String × Json) :=
    match batch_size with
    | some b => data ++ [("batchSize", .num b)]
    | none => data
  let data : List (String × Json) :=
    match ttl with
    | some t => data ++ [("ttl", .num t)]
    | none => data
  let data : List (String × Json) :=
    match bind_vars with
    | some bv => data ++ [("bindVars", .obj bv)]
    | none => data
  let data := if options.isEmpty then data else data ++ [("options", .obj options)]
  { method := "post", endpoint := "/_api/cursor", data := .obj data }

/-- Handler of `AQL.execute` (aql.py lines 158-161): raise on non-success
status, otherwise build a `Cursor` from the whole body. The `Cursor` class
is outside this module; its construction is embedded as returning the body
it wraps. -/
def executeHandler (res : Response) : Except Err Json :=
  if res.status_code ∈ HTTP_OK then .ok res.body
  else .error (.AQLQueryExecuteError res)

/-- Request built by `AQL.functions` (aql.py line 174). -/
def functionsRequest : Request :=
  { method := "get", endpoint := "/_api/aqlfunction" }

/-- Python dict insert (`d[k] = v`): replace the value in place when the key
is present, append otherwise. Keys are arbitrary JSON values compared with
`jeq`. -/
def dictInsert : List (Json × Json) → Json → Json → List (Json × Json)
  | [], k, v => [(k, v)]
  | kv :: rest, k, v =>
    if jeq kv.1 k then (kv.1, v) :: rest else kv :: dictInsert rest k v

/-- Lookup in a Python dict with JSON keys. -/
def mget (m : List (Json × Json)) (k : Json) : Option Json :=
  (m.find? (fun kv => jeq kv.1 k)).map (·.2)

/-- One step of building a dict from an iterable of key/value pairs
(`dict(iterable)`): each element must be a two-element sequence. -/
def pairStep (acc : List (Json × Json)) (p : Json) : Except Err (List (Json × Json)) :=
  match p with
  | .arr [k, v] => .ok (dictInsert acc k v)
  | _ => .error .typeError

/-- Building a dict from a list of pairs, left to right. -/
def buildPairs (acc : List (Json × Json)) : List Json → Except Err (List (Json × Json))
  | [] => .ok acc
  | p :: ps =>
    match pairStep acc p with
    | .ok acc2 => buildPairs acc2 ps
    | .error e => .error e

/-- Python `dict(x)`: a mapping is copied (its string keys become JSON
string keys), a list of two-element sequences is assembled pairwise, and
anything else raises `TypeError`. -/
def toDict : Json → Except Err (List (Json × Json))
  | .obj kvs => .ok (kvs.map (fun kv => (Json.str kv.1, kv.2)))
  | .arr ps => buildPairs [] ps
  | _ => .error .typeError

/-- One element of the comprehension in the `functions` handler
(aql.py line 180): `dict(func)` then `func['name']` and `func['code']`. -/
def funcStep (acc : List (Json × Json)) (f : Json) : Except Err (List (Json × Json)) :=
  match toDict f with
  | .error e => .error e
  | .ok d =>
    match mget d (.str "name") with
    | none => .error (.keyError "name")
    | some n =>
      match mget d (.str "code") with
      | none => .error (.keyError "code")
      | some c => .ok (dictInsert acc n c)

/-- The dict comprehension of the `functions` handler over a list body,
left to right, later entries overwriting earlier ones with the same name. -/
def buildFuncs (acc : List (Json × Json)) : List Json → Except Err (List (Json × Json))
  | [] => .ok acc
  | f :: fs =>
    match funcStep acc f with
    | .ok acc2 => buildFuncs acc2 fs
    | .error e => .error e

/-- Handler of `AQL.functions` (aql.py lines 176-180): raise on non-success
status; `body = res.body or {}` replaces a falsy body by an empty dict;
the comprehension over an empty dict yields an empty mapping, over a list
it maps each element's `name` to its `code`; iterating a non-empty mapping
or a non-iterable raises `TypeError` inside `dict`. -/
def functionsHandler (res : Response) : Except Err (List (Json × Json)) :=
  if res.status_code ∈ HTTP_OK then
    let body := if res.body.truthy then res.body else Json.obj []
    match body with
    | .obj [] => .ok []
    | .arr fs => buildFuncs [] fs
    | _ => .error .typeError
  else .error (.AQLFunctionsListError res)

/-- Request built by `AQL.create_function` (aql.py lines 197-201). -/
def createFunctionRequest (name code : String) : Request :=
  { method := "post", endpoint := "/_api/aqlfunction",
    data := .obj [("name", .str name), ("code", .str code)] }

/-- Handler of `AQL.create_function` (aql.py lines 203-206): raise unless
the status is 200 or 201, otherwise return `not body['error']`. -/
def createFunctionHandler (res : Response) : Except Err Bool :=
  if res.status_code = 200 ∨ res.status_code = 201 then
    (dictIndex res.body "error").map (fun v => !v.truthy)
  else .error (.AQLFunctionCreateError res)

/-- Request built by `AQL.delete_function` (aql.py lines 231-235): the
`group` flag is forwarded as a query parameter only when set. -/
def deleteFunctionRequest (name : String) (group : Option Bool) : Request :=
  { method := "delete", endpoint := "/_api/aqlfunction/" ++ name,
    params :=
      match group with
      | some g => [("group", .bool g)]
      | none => [] }

/-- Handler of `AQL.delete_function` (aql.py lines 237-241): raise on a
non-success status unless it is 404 and `ignore_missing` holds; in every
non-raising case return `not body['error']`. -/
def deleteFunctionHandler (ignore_missing : Bool) (res : Response) : Except Err Bool :=
  if res.status_code ∉ HTTP_OK ∧ ¬(res.status_code = 404 ∧ ignore_missing) then
    .error (.AQLFunctionDeleteError res)
  else (dictIndex res.body "error").map (fun v => !v.truthy)

end AQL

namespace AQLQueryCache

/-- Request built by `AQLQueryCache.properties` (aql.py lines 265-268). -/
def propertiesRequest : Request :=
  { method := "get", endpoint := "/_api/query-cache/properties" }

/-- Handler of `AQLQueryCache.properties` (aql.py lines 270-273): raise on
non-success status, otherwise return a dict of `body['mode']` under `mode`
and `body['maxResults']` under `limit`; a missing field raises `KeyError`. -/
def propertiesHandler (res : Response) : Except Err Json :=
  if res.status_code ∈ HTTP_OK then
    match dictIndex res.body "mode" with
    | .error e => .error e
    | .ok m =>
      match dictIndex res.body "maxResults" with
      | .error e => .error e
      | .ok x => .ok (.obj [("mode", m), ("limit", x)])
  else .error (.AQLCacheGetPropertiesError res)

/-- Request built by `AQLQueryCache.configure` (aql.py lines 290-300):
`mode` and `maxResults` appear in the body only when the caller set them. -/
def configureRequest (mode : Option String) (limit : Option Int) : Request :=
  let data : List (String × Json) := []
  let data : List (String × Json) :=
    match mode with
    | some m => data ++ [("mode", .str m)]
    | none => data
  let data : List (String × Json) :=
    match limit with
    | some l => data ++ [("maxResults", .num l)]
    | none => data
  { method := "put", endpoint := "/_api/query-cache/properties", data := .obj data }

/-- Handler of `AQLQueryCache.configure` (aql.py lines 302-305): same
extraction as the properties handler, with its own error class. -/
def configureHandler (res : Response) : Except Err Json :=
  if res.status_code ∈ HTTP_OK then
    match dictIndex res.body "mode" with
    | .error e => .error e
    | .ok m =>
      match dictIndex res.body "maxResults" with
      | .error e => .error e
      | .ok x => .ok (.obj [("mode", m), ("limit", x)])
  else .error (.AQLCacheConfigureError res)

/-- Request built by `AQLQueryCache.clear` (aql.py line 318). -/
def clearRequest : Request :=
  { method := "delete", endpoint := "/_api/query-cache" }

/-- Handler of `AQLQueryCache.clear` (aql.py lines 320-323): raise on
non-success status, otherwise return `not body['error']`. -/
def clearHandler (res : Response) : Except Err Bool :=
  if res.status_code ∈ HTTP_OK then
    (dictIndex res.body "error").map (fun v => !v.truthy)
  else .error (.AQLCacheClearError res)

end AQLQueryCache

/-! ## Dictionary lemmas -/

theorem getKey_popKey_self (kvs : List (String × Json)) (k : String) :
    getKey (popKey kvs k) k = none := by
  induction kvs with
  | nil => rfl
  | cons kv rest ih =>
    by_cases h : kv.1 = k
    · simpa [popKey, h] using ih
    · simpa [popKey, getKey, h] using ih

theorem getKey_popKey_ne (kvs : List (String × Json)) (k k' : String) (h : k' ≠ k) :
    getKey (popKey kvs k) k' = getKey kvs k' := by
  induction kvs with
  | nil => rfl
  | cons kv rest ih =>
    by_cases hk : kv.1 = k
    · have hne : kv.1 ≠ k' := fun hc => h ((hk.symm.trans hc).symm)
      simp only [popKey, getKey, if_pos hk, if_neg hne]
      exact ih
    · simp only [popKey, getKey, if_neg hk]
      by_cases hk' : kv.1 = k' <;> simp [getKey, hk', ih]

theorem mem_popKey (kvs : List (String × Json)) (k : String) (kv : String × Json) :
    kv ∈ popKey kvs k ↔ kv ∈ kvs ∧ kv.1 ≠ k := by
  induction kvs with
  | nil => simp [popKey]
  | cons hd rest ih =>
    by_cases h : hd.1 = k
    · rw [popKey, if_pos h, ih]
      constructor
      · rintro ⟨hmem, hne⟩
        exact ⟨List.mem_cons_of_mem _ hmem, hne⟩
      · rintro ⟨hmem, hne⟩
        rcases List.mem_cons.mp hmem with rfl | hmem
        · exact absurd h hne
        · exact ⟨hmem, hne⟩
    · rw [popKey, if_neg h]
      constructor
      · intro hmem
        rcases List.mem_cons.mp hmem with rfl | hmem
        · exact ⟨List.mem_cons_self _ _, h⟩
        · rcases ih.mp hmem with ⟨h1, h2⟩
          exact ⟨List.mem_cons_of_mem _ h1, h2⟩
      · rintro ⟨hmem, hne⟩
        rcases List.mem_cons.mp hmem with rfl | hmem
        · exact List.mem_cons_self _ _
        · exact List.mem_cons_of_mem _ (ih.mpr ⟨hmem, hne⟩)

theorem dictIndex_eq_ok (body : Json) (k : String) (v : Json)
    (h : Json.get? body k = some v) : dictIndex body k = .ok v := by
  cases body <;> simp [Json.get?] at h
  simp [dictIndex, h]

/-! ## Claim theorems -/

/-- C1 (counterexample): at a success response whose body carries both a
`plan` and a `plans` field, the explain handler returns the `plan` value and
not the `plans` list, refuting that it extracts `plans` whenever a `plans`
field is present. -/
theorem C1_explain_counterexample :
    200 ∈ HTTP_OK ∧
    Json.get? (Json.obj [("plan", Json.num 1), ("plans", Json.arr [])]) "plans"
      = some (Json.arr []) ∧
    AQL.explainHandler ⟨200, Json.obj [("plan", Json.num 1), ("plans", Json.arr [])]⟩
      = .ok (Json.num 1) ∧
    AQL.explainHandler ⟨200, Json.obj [("plan", Json.num 1), ("plans", Json.arr [])]⟩
      ≠ .ok (Json.arr []) :=
  ⟨by decide, rfl, rfl, fun hc => Json.noConfusion (Except.ok.inj hc)⟩

/-- C1 (amended): explain(query, all_plans=True) sends a body whose options
contain allPlans=true (and the default sends allPlans=false); on a success
status the handler returns the `plan` field whenever present, and the
`plans` field only when no `plan` field is present — independently of
all_plans. -/
theorem C1_explain_amended (query : String) (mp : Option Int) (rules : Option (List String))
    (res : Response) (kvs : List (String × Json))
    (hok : res.status_code ∈ HTTP_OK) (hbody : res.body = Json.obj kvs) :
    Json.get2? (AQL.explainRequest query true mp rules).data "options" "allPlans"
      = some (Json.bool true) ∧
    Json.get2? (AQL.explainRequest query false mp rules).data "options" "allPlans"
      = some (Json.bool false) ∧
    (∀ v, getKey kvs "plan" = some v → AQL.explainHandler res = .ok v) ∧
    (getKey kvs "plan" = none →
      ∀ v, getKey kvs "plans" = some v → AQL.explainHandler res = .ok v) := by
  obtain ⟨sc, body⟩ := res
  subst hbody
  refine ⟨?_, ?_, ?_, ?_⟩
  · cases mp <;> cases rules <;> rfl
  · cases mp <;> cases rules <;> rfl
  · intro v hv
    have hk : hasKey kvs "plan" = true := by simp [hasKey, hv]
    simp [AQL.explainHandler, hok, hk, dictIndex, hv]
  · intro hnone v hv
    have hk : hasKey kvs "plan" = false := by simp [hasKey, hnone]
    simp [AQL.explainHandler, hok, hk, dictIndex, hnone, hv]

/-- C1 witness: the amended statement applied at a concrete success response
carrying only a `plan` field. -/
theorem C1_explain_amended_witness :
    Json.get2? (AQL.explainRequest "q" true none none).data "options" "allPlans"
      = some (Json.bool true) ∧
    Json.get2? (AQL.explainRequest "q" false none none).data "options" "allPlans"
      = some (Json.bool false) ∧
    (∀ v, getKey [("plan", Json.num 1)] "plan" = some v →
      AQL.explainHandler ⟨200, Json.obj [("plan", Json.num 1)]⟩ = .ok v) ∧
    (getKey [("plan", Json.num 1)] "plan" = none →
      ∀ v, getKey [("plan", Json.num 1)] "plans" = some v →
        AQL.explainHandler ⟨200, Json.obj [("plan", Json.num 1)]⟩ = .ok v) :=
  C1_explain_amended "q" none none ⟨200, Json.obj [("plan", Json.num 1)]⟩
    [("plan", Json.num 1)] (by decide) rfl

/-- C2 (counterexample): explain with every optional argument left at its
default still sends an `allPlans` key (value false) inside the options of
the outbound body, so the server default for that option is overridden. -/
theorem C2_explain_counterexample :
    Json.get2? (AQL.explainRequest "q" false none none).data "options" "allPlans"
      = some (Json.bool false) := rfl

/-- C2 (amended): `maxNumberOfPlans` and `optimizer` appear in the explain
options exactly when max_plans / opt_rules were set, but `allPlans` is always
present, mirroring the all_plans argument (false by default). -/
theorem C2_explain_amended (q : String) (ap : Bool) (mp : Option Int)
    (rules : Option (List String)) :
    Json.get2? (AQL.explainRequest q ap mp rules).data "options" "allPlans"
      = some (Json.bool ap) ∧
    Json.get2? (AQL.explainRequest q ap mp rules).data "options" "maxNumberOfPlans"
      = mp.map Json.num ∧
    Json.get2? (AQL.explainRequest q ap mp rules).data "options" "optimizer"
      = rules.map (fun rs => Json.obj [("rules", Json.arr (rs.map Json.str))]) ∧
    ((AQL.explainRequest q ap mp rules).data.get? "options").bind Json.keys?
      = some (["allPlans"]
          ++ (if mp.isSome then ["maxNumberOfPlans"] else [])
          ++ (if rules.isSome then ["optimizer"] else [])) ∧
    (AQL.explainRequest q ap mp rules).data.keys? = some ["query", "options"] := by
  cases mp <;> cases rules <;> exact ⟨rfl, rfl, rfl, rfl, rfl⟩

/-- C3 (counterexample): against the not-found response whose body lacks an
`error` field, delete_function with ignore_missing=True does not return: it
fails with an unclassified KeyError (while ignore_missing=False raises
AQLFunctionDeleteError on the same response). -/
theorem C3_delete_function_counterexample :
    (404 ∈ HTTP_OK ↔ False) ∧
    AQL.deleteFunctionHandler true ⟨404, Json.obj []⟩ = .error (.keyError "error") ∧
    AQL.deleteFunctionHandler false ⟨404, Json.obj []⟩
      = .error (.AQLFunctionDeleteError ⟨404, Json.obj []⟩) :=
  ⟨by decide, rfl, rfl⟩

/-- C3 (amended): against a not-found response whose body contains an `error`
field, ignore_missing=True returns without raising (the negation of that
field) while ignore_missing=False raises AQLFunctionDeleteError; for any
other non-success status the handler raises AQLFunctionDeleteError
regardless of ignore_missing. -/
theorem C3_delete_function_amended (res : Response) (v : Json)
    (h404 : res.status_code = 404) (herr : Json.get? res.body "error" = some v) :
    AQL.deleteFunctionHandler true res = .ok (!v.truthy) ∧
    AQL.deleteFunctionHandler false res = .error (.AQLFunctionDeleteError res) ∧
    (∀ (im : Bool) (res2 : Response), res2.status_code ∉ HTTP_OK →
      res2.status_code ≠ 404 →
      AQL.deleteFunctionHandler im res2 = .error (.AQLFunctionDeleteError res2)) := by
  have hno : (404 : Nat) ∉ HTTP_OK := by decide
  refine ⟨?_, ?_, ?_⟩
  · simp [AQL.deleteFunctionHandler, h404, hno, dictIndex_eq_ok _ _ _ herr, Except.map]
  · simp [AQL.deleteFunctionHandler, h404, hno]
  · intro im res2 h1 h2
    simp [AQL.deleteFunctionHandler, h1, h2]

/-- C3 witness: the amended statement applied at a concrete not-found
response reporting error=true. -/
theorem C3_delete_function_amended_witness :
    AQL.deleteFunctionHandler true ⟨404, Json.obj [("error", Json.bool true)]⟩
      = .ok (!(Json.bool true).truthy) ∧
    AQL.deleteFunctionHandler false ⟨404, Json.obj [("error", Json.bool true)]⟩
      = .error (.AQLFunctionDeleteError ⟨404, Json.obj [("error", Json.bool true)]⟩) ∧
    (∀ (im : Bool) (res2 : Response), res2.status_code ∉ HTTP_OK →
      res2.status_code ≠ 404 →
      AQL.deleteFunctionHandler im res2 = .error (.AQLFunctionDeleteError res2)) :=
  C3_delete_function_amended ⟨404, Json.obj [("error", Json.bool true)]⟩
    (Json.bool true) rfl rfl

/-- C5: the cache configure body carries a `mode` key exactly when the caller
supplied mode and a `maxResults` key exactly when the caller supplied limit;
in particular configure(limit=5) sends `maxResults` and no `mode` key. -/
theorem C5_configure_body (mode : Option String) (limit : Option Int) :
    (AQLQueryCache.configureRequest mode limit).data.get? "mode" = mode.map Json.str ∧
    (AQLQueryCache.configureRequest mode limit).data.get? "maxResults"
      = limit.map Json.num ∧
    (AQLQueryCache.configureRequest mode limit).data.keys?
      = some ((if mode.isSome then ["mode"] else [])
          ++ (if limit.isSome then ["maxResults"] else [])) ∧
    (AQLQueryCache.configureRequest none (some 5)).data.get? "maxResults"
      = some (Json.num 5) ∧
    (AQLQueryCache.configureRequest none (some 5)).data.get? "mode" = none := by
  cases mode <;> cases limit <;> exact ⟨rfl, rfl, rfl, rfl, rfl⟩

/-- C9: even when the 404 is suppressed (ignore_missing=True), the return
value is still `not body['error']`: a not-found body reporting error=true
yields False, and a suppressed-404 body lacking an `error` field makes the
handler fail with an unclassified KeyError instead of returning. -/
theorem C9_delete_function_suppressed (res : Response) (kvs : List (String × Json))
    (h404 : res.status_code = 404) (hbody : res.body = Json.obj kvs) :
    (∀ v, getKey kvs "error" = some v →
      AQL.deleteFunctionHandler true res = .ok (!v.truthy)) ∧
    (getKey kvs "error" = some (Json.bool true) →
      AQL.deleteFunctionHandler true res = .ok false) ∧
    (getKey kvs "error" = none →
      AQL.deleteFunctionHandler true res = .error (.keyError "error")) := by
  have hno : (404 : Nat) ∉ HTTP_OK := by decide
  obtain ⟨sc, body⟩ := res
  subst hbody
  subst h404
  refine ⟨?_, ?_, ?_⟩
  · intro v hv
    simp [AQL.deleteFunctionHandler, hno, dictIndex, hv, Except.map]
  · intro hv
    simp [AQL.deleteFunctionHandler, hno, dictIndex, hv, Json.truthy, Except.map]
  · intro hnone
    simp [AQL.deleteFunctionHandler, hno, dictIndex, hnone, Except.map]

/-- C9 witness: the statement applied at a concrete not-found response whose
body reports error=true. -/
theorem C9_delete_function_suppressed_witness :
    (∀ v, getKey [("error", Json.bool true)] "error" = some v →
      AQL.deleteFunctionHandler true ⟨404, Json.obj [("error", Json.bool true)]⟩
        = .ok (!v.truthy)) ∧
    (getKey [("error", Json.bool true)] "error" = some (Json.bool true) →
      AQL.deleteFunctionHandler true ⟨404, Json.obj [("error", Json.bool true)]⟩
        = .ok false) ∧
    (getKey [("error", Json.bool true)] "error" = none →
      AQL.deleteFunctionHandler true ⟨404, Json.obj [("error", Json.bool true)]⟩
        = .error (.keyError "error")) :=
  C9_delete_function_suppressed ⟨404, Json.obj [("error", Json.bool true)]⟩
    [("error", Json.bool true)] rfl rfl

/-- C7: on a success status the validate handler returns the body with the
`code` and `error` fields removed, every other key/value pair of the body
being present unchanged in the result; on a non-success status it raises
AQLQueryValidateError. -/
theorem C7_validate (res : Response) (kvs : List (String × Json))
    (hok : res.status_code ∈ HTTP_OK) (hbody : res.body = Json.obj kvs) :
    AQL.validateHandler res = .ok (.obj (popKey (popKey kvs "code") "error")) ∧
    hasKey (popKey (popKey kvs "code") "error") "code" = false ∧
    hasKey (popKey (popKey kvs "code") "error") "error" = false ∧
    (∀ k v, k ≠ "code" → k ≠ "error" →
      ((k, v) ∈ kvs ↔ (k, v) ∈ popKey (popKey kvs "code") "error")) ∧
    (∀ res2 : Response, res2.status_code ∉ HTTP_OK →
      AQL.validateHandler res2 = .error (.AQLQueryValidateError res2)) := by
  obtain ⟨sc, body⟩ := res
  subst hbody
  refine ⟨?_, ?_, ?_, ?_, ?_⟩
  · simp [AQL.validateHandler, hok]
  · have h1 : getKey (popKey (popKey kvs "code") "error") "code"
        = getKey (popKey kvs "code") "code" := getKey_popKey_ne _ _ _ (by decide)
    simp [hasKey, h1, getKey_popKey_self]
  · simp [hasKey, getKey_popKey_self]
  · intro k v hkc hke
    simp [mem_popKey, hkc, hke]
  · intro res2 h2
    simp [AQL.validateHandler, h2]

/-- C7 witness: the statement applied at a concrete success response. -/
theorem C7_validate_witness :
    AQL.validateHandler
        ⟨200, Json.obj [("code", Json.num 200), ("error", Json.bool false),
          ("parsed", Json.bool true)]⟩
      = .ok (.obj (popKey (popKey [("code", Json.num 200), ("error", Json.bool false),
          ("parsed", Json.bool true)] "code") "error")) ∧
    hasKey (popKey (popKey [("code", Json.num 200), ("error", Json.bool false),
      ("parsed", Json.bool true)] "code") "error") "code" = false ∧
    hasKey (popKey (popKey [("code", Json.num 200), ("error", Json.bool false),
      ("parsed", Json.bool true)] "code") "error") "error" = false ∧
    (∀ k v, k ≠ "code" → k ≠ "error" →
      ((k, v) ∈ [("code", Json.num 200), ("error", Json.bool false),
          ("parsed", Json.bool true)] ↔
        (k, v) ∈ popKey (popKey [("code", Json.num 200), ("error", Json.bool false),
          ("parsed", Json.bool true)] "code") "error")) ∧
    (∀ res2 : Response, res2.status_code ∉ HTTP_OK →
      AQL.validateHandler res2 = .error (.AQLQueryValidateError res2)) :=
  C7_validate ⟨200, Json.obj [("code", Json.num 200), ("error", Json.bool false),
    ("parsed", Json.bool true)]⟩ _ (by decide) rfl

/-- C8: on a success response whose body has both fields, the cache
properties and configure handlers return exactly the mapping of `mode` to
body's mode and `limit` to body's maxResults; if the server omits either
field the handlers fail with an explicit KeyError instead of substituting a
default. -/
theorem C8_cache_extraction (res : Response) (kvs : List (String × Json))
    (hok : res.status_code ∈ HTTP_OK) (hbody : res.body = Json.obj kvs) :
    (∀ m x, getKey kvs "mode" = some m → getKey kvs "maxResults" = some x →
      AQLQueryCache.propertiesHandler res = .ok (.obj [("mode", m), ("limit", x)]) ∧
      AQLQueryCache.configureHandler res = .ok (.obj [("mode", m), ("limit", x)])) ∧
    (getKey kvs "mode" = none →
      AQLQueryCache.propertiesHandler res = .error (.keyError "mode") ∧
      AQLQueryCache.configureHandler res = .error (.keyError "mode")) ∧
    (∀ m, getKey kvs "mode" = some m → getKey kvs "maxResults" = none →
      AQLQueryCache.propertiesHandler res = .error (.keyError "maxResults") ∧
      AQLQueryCache.configureHandler res = .error (.keyError "maxResults")) := by
  obtain ⟨sc, body⟩ := res
  subst hbody
  refine ⟨?_, ?_, ?_⟩
  · intro m x hm hx
    constructor <;>
      simp [AQLQueryCache.propertiesHandler, AQLQueryCache.configureHandler,
        hok, dictIndex, hm, hx]
  · intro hm
    constructor <;>
      simp [AQLQueryCache.propertiesHandler, AQLQueryCache.configureHandler,
        hok, dictIndex, hm]
  · intro m hm hx
    constructor <;>
      simp [AQLQueryCache.propertiesHandler, AQLQueryCache.configureHandler,
        hok, dictIndex, hm, hx]

/-- C8 witness: the statement applied at a concrete success response with
both fields present. -/
theorem C8_cache_extraction_witness :
    (∀ m x, getKey [("mode", Json.str "on"), ("maxResults", Json.num 128)] "mode" = some m →
      getKey [("mode", Json.str "on"), ("maxResults", Json.num 128)] "maxResults" = some x →
      AQLQueryCache.propertiesHandler
          ⟨200, Json.obj [("mode", Json.str "on"), ("maxResults", Json.num 128)]⟩
        = .ok (.obj [("mode", m), ("limit", x)]) ∧
      AQLQueryCache.configureHandler
          ⟨200, Json.obj [("mode", Json.str "on"), ("maxResults", Json.num 128)]⟩
        = .ok (.obj [("mode", m), ("limit", x)])) ∧
    (getKey [("mode", Json.str "on"), ("maxResults", Json.num 128)] "mode" = none →
      AQLQueryCache.propertiesHandler
          ⟨200, Json.obj [("mode", Json.str "on"), ("maxResults", Json.num 128)]⟩
        = .error (.keyError "mode") ∧
      AQLQueryCache.configureHandler
          ⟨200, Json.obj [("mode", Json.str "on"), ("maxResults", Json.num 128)]⟩
        = .error (.keyError "mode")) ∧
    (∀ m, getKey [("mode", Json.str "on"), ("maxResults", Json.num 128)] "mode" = some m →
      getKey [("mode", Json.str "on"), ("maxResults", Json.num 128)] "maxResults" = none →
      AQLQueryCache.propertiesHandler
          ⟨200, Json.obj [("mode", Json.str "on"), ("maxResults", Json.num 128)]⟩
        = .error (.keyError "maxResults") ∧
      AQLQueryCache.configureHandler
          ⟨200, Json.obj [("mode", Json.str "on"), ("maxResults", Json.num 128)]⟩
        = .error (.keyError "maxResults")) :=
  C8_cache_extraction
    ⟨200, Json.obj [("mode", Json.str "on"), ("maxResults", Json.num 128)]⟩
    [("mode", Json.str "on"), ("maxResults", Json.num 128)] (by decide) rfl

/-- C4: execute builds exactly the documented body shape: `query` and
`count` are always present, `batchSize`, `ttl` and `bindVars` appear iff the
corresponding argument was supplied, and `options` (with `fullCount`,
`maxNumberOfPlans`, `optimizer` sub-keys iff supplied) appears iff at least
one of full_count, max_plans, optimizer_rules was supplied. -/
theorem C4_execute_body (q : String) (c : Bool) (bs ttl : Option Int)
    (bv : Option (List (String × Json))) (fc : Option Bool) (mp : Option Int)
    (orules : Option (List String)) :
    (AQL.executeRequest q c bs ttl bv fc mp orules).data.get? "query"
      = some (Json.str q) ∧
    (AQL.executeRequest q c bs ttl bv fc mp orules).data.get? "count"
      = some (Json.bool c) ∧
    (AQL.executeRequest q c bs ttl bv fc mp orules).data.get? "batchSize"
      = bs.map Json.num ∧
    (AQL.executeRequest q c bs ttl bv fc mp orules).data.get? "ttl"
      = ttl.map Json.num ∧
    (AQL.executeRequest q c bs ttl bv fc mp orules).data.get? "bindVars"
      = bv.map Json.obj ∧
    Json.get2? (AQL.executeRequest q c bs ttl bv fc mp orules).data "options" "fullCount"
      = fc.map Json.bool ∧
    Json.get2? (AQL.executeRequest q c bs ttl bv fc mp orules).data "options"
        "maxNumberOfPlans"
      = mp.map Json.num ∧
    Json.get2? (AQL.executeRequest q c bs ttl bv fc mp orules).data "options" "optimizer"
      = orules.map (fun rs => Json.obj [("rules", Json.arr (rs.map Json.str))]) ∧
    ((AQL.executeRequest q c bs ttl bv fc mp orules).data.get? "options").bind Json.keys?
      = (if fc.isSome || mp.isSome || orules.isSome then
          some ((if fc.isSome then ["fullCount"] else [])
            ++ (if mp.isSome then ["maxNumberOfPlans"] else [])
            ++ (if orules.isSome then ["optimizer"] else []))
        else none) ∧
    (AQL.executeRequest q c bs ttl bv fc mp orules).data.keys?
      = some (["query", "count"]
          ++ (if bs.isSome then ["batchSize"] else [])
          ++ (if ttl.isSome then ["ttl"] else [])
          ++ (if bv.isSome then ["bindVars"] else [])
          ++ (if fc.isSome || mp.isSome || orules.isSome then ["options"] else [])) := by
  cases bs <;> cases ttl <;> cases bv <;> cases fc <;> cases mp <;> cases orules <;>
    exact ⟨rfl, rfl, rfl, rfl, rfl, rfl, rfl, rfl, rfl, rfl⟩

/-! ## Error characterization lemmas -/

theorem dictIndex_error (body : Json) (k : String) (e : Err)
    (h : dictIndex body k = .error e) : e = .keyError k ∨ e = .typeError := by
  cases body with
  | obj kvs =>
    have h2 : (match getKey kvs k with
        | some v => (Except.ok v : Except Err Json)
        | none => .error (.keyError k)) = .error e := h
    cases hg : getKey kvs k with
    | some v => rw [hg] at h2; exact absurd h2 (by simp)
    | none => rw [hg] at h2; exact Or.inl (Except.error.inj h2).symm
  | null => exact Or.inr (Except.error.inj h).symm
  | bool b => exact Or.inr (Except.error.inj h).symm
  | num n => exact Or.inr (Except.error.inj h).symm
  | str s => exact Or.inr (Except.error.inj h).symm
  | arr xs => exact Or.inr (Except.error.inj h).symm

theorem map_dictIndex_error (body : Json) (k : String) (f : Json → Bool) (e : Err)
    (h : (dictIndex body k).map (fun v => f v) = .error e) :
    e = .keyError k ∨ e = .typeError := by
  cases hd : dictIndex body k with
  | ok v => rw [hd] at h; exact absurd h (by simp [Except.map])
  | error e2 =>
    rw [hd] at h
    have h2 : (Except.error e2 : Except Err Bool) = .error e := h
    obtain rfl := Except.error.inj h2
    exact dictIndex_error body k _ hd

theorem pairStep_error (acc : List (Json × Json)) (p : Json) (e : Err)
    (h : AQL.pairStep acc p = .error e) : e = .typeError := by
  unfold AQL.pairStep at h
  split at h
  · exact absurd h (by simp)
  · exact (Except.error.inj h).symm

theorem buildPairs_error (ps : List Json) : ∀ (acc : List (Json × Json)) (e : Err),
    AQL.buildPairs acc ps = .error e → e = .typeError := by
  induction ps with
  | nil => intro acc e h; exact absurd h (by simp [AQL.buildPairs])
  | cons p ps ih =>
    intro acc e h
    unfold AQL.buildPairs at h
    cases hp : AQL.pairStep acc p with
    | ok acc2 => rw [hp] at h; exact ih acc2 e h
    | error e2 =>
      rw [hp] at h
      have h2 : (Except.error e2 : Except Err (List (Json × Json))) = .error e := h
      obtain rfl := Except.error.inj h2
      exact pairStep_error acc p _ hp

theorem toDict_error (f : Json) (e : Err) (h : AQL.toDict f = .error e) :
    e = .typeError := by
  cases f with
  | arr ps => exact buildPairs_error ps [] e h
  | obj kvs => exact absurd h (by simp [AQL.toDict])
  | null => exact (Except.error.inj h).symm
  | bool b => exact (Except.error.inj h).symm
  | num n => exact (Except.error.inj h).symm
  | str s => exact (Except.error.inj h).symm

theorem funcStep_error (acc : List (Json × Json)) (f : Json) (e : Err)
    (h : AQL.funcStep acc f = .error e) :
    (∃ k, e = .keyError k) ∨ e = .typeError := by
  unfold AQL.funcStep at h
  cases hd : AQL.toDict f with
  | error e2 =>
    rw [hd] at h
    have h2 : (Except.error e2 : Except Err (List (Json × Json))) = .error e := h
    obtain rfl := Except.error.inj h2
    exact Or.inr (toDict_error f _ hd)
  | ok d =>
    rw [hd] at h
    have h2 : (match AQL.mget d (.str "name") with
        | none => (Except.error (Err.keyError "name") : Except Err (List (Json × Json)))
        | some n =>
          match AQL.mget d (.str "code") with
          | none => .error (.keyError "code")
          | some c => .ok (AQL.dictInsert acc n c)) = .error e := h
    cases hn : AQL.mget d (.str "name") with
    | none =>
      rw [hn] at h2
      exact Or.inl ⟨"name", (Except.error.inj h2).symm⟩
    | some n =>
      rw [hn] at h2
      cases hc : AQL.mget d (.str "code") with
      | none =>
        rw [hc] at h2
        exact Or.inl ⟨"code", (Except.error.inj h2).symm⟩
      | some c => rw [hc] at h2; exact absurd h2 (by simp)

theorem buildFuncs_error (fs : List Json) : ∀ (acc : List (Json × Json)) (e : Err),
    AQL.buildFuncs acc fs = .error e → (∃ k, e = .keyError k) ∨ e = .typeError := by
  induction fs with
  | nil => intro acc e h; exact absurd h (by simp [AQL.buildFuncs])
  | cons f fs ih =>
    intro acc e h
    unfold AQL.buildFuncs at h
    cases hs : AQL.funcStep acc f with
    | ok acc2 => rw [hs] at h; exact ih acc2 e h
    | error e2 =>
      rw [hs] at h
      have h2 : (Except.error e2 : Except Err (List (Json × Json))) = .error e := h
      obtain rfl := Except.error.inj h2
      exact funcStep_error acc f _ hs

theorem explainHandler_error_iff (res : Response) :
    AQL.explainHandler res = .error (.AQLQueryExplainError res)
      ↔ res.status_code ∉ HTTP_OK := by
  by_cases hok : res.status_code ∈ HTTP_OK
  · refine iff_of_false ?_ (by simp [hok])
    intro h
    unfold AQL.explainHandler at h
    rw [if_pos hok] at h
    cases hb : res.body with
    | null => rw [hb] at h; exact Err.noConfusion (Except.error.inj h)
    | bool b => rw [hb] at h; exact Err.noConfusion (Except.error.inj h)
    | num n => rw [hb] at h; exact Err.noConfusion (Except.error.inj h)
    | str s => rw [hb] at h; exact Err.noConfusion (Except.error.inj h)
    | arr xs => rw [hb] at h; exact Err.noConfusion (Except.error.inj h)
    | obj kvs =>
      rw [hb] at h
      have h2 : (if hasKey kvs "plan" then dictIndex (Json.obj kvs) "plan"
          else dictIndex (Json.obj kvs) "plans")
          = .error (.AQLQueryExplainError res) := h
      by_cases hp : hasKey kvs "plan" = true
      · rw [if_pos hp] at h2
        rcases dictIndex_error _ _ _ h2 with h3 | h3 <;> exact Err.noConfusion h3
      · rw [if_neg hp] at h2
        rcases dictIndex_error _ _ _ h2 with h3 | h3 <;> exact Err.noConfusion h3
  · refine iff_of_true ?_ hok
    unfold AQL.explainHandler
    rw [if_neg hok]

theorem validateHandler_error_iff (res : Response) :
    AQL.validateHandler res = .error (.AQLQueryValidateError res)
      ↔ res.status_code ∉ HTTP_OK := by
  by_cases hok : res.status_code ∈ HTTP_OK
  · refine iff_of_false ?_ (by simp [hok])
    intro h
    unfold AQL.validateHandler at h
    rw [if_pos hok] at h
    cases hb : res.body with
    | null => rw [hb] at h; exact Err.noConfusion (Except.error.inj h)
    | bool b => rw [hb] at h; exact Err.noConfusion (Except.error.inj h)
    | num n => rw [hb] at h; exact Err.noConfusion (Except.error.inj h)
    | str s => rw [hb] at h; exact Err.noConfusion (Except.error.inj h)
    | arr xs => rw [hb] at h; exact Err.noConfusion (Except.error.inj h)
    | obj kvs => rw [hb] at h; exact Except.noConfusion h
  · refine iff_of_true ?_ hok
    unfold AQL.validateHandler
    rw [if_neg hok]

theorem executeHandler_error_iff (res : Response) :
    AQL.executeHandler res = .error (.AQLQueryExecuteError res)
      ↔ res.status_code ∉ HTTP_OK := by
  by_cases hok : res.status_code ∈ HTTP_OK
  · refine iff_of_false ?_ (by simp [hok])
    intro h
    unfold AQL.executeHandler at h
    rw [if_pos hok] at h
    exact Except.noConfusion h
  · refine iff_of_true ?_ hok
    unfold AQL.executeHandler
    rw [if_neg hok]

theorem functionsHandler_error_iff (res : Response) :
    AQL.functionsHandler res = .error (.AQLFunctionsListError res)
      ↔ res.status_code ∉ HTTP_OK := by
  by_cases hok : res.status_code ∈ HTTP_OK
  · refine iff_of_false ?_ (by simp [hok])
    intro h
    unfold AQL.functionsHandler at h
    rw [if_pos hok] at h
    cases hb : (if res.body.truthy then res.body else Json.obj []) with
    | null => rw [hb] at h; exact Err.noConfusion (Except.error.inj h)
    | bool b => rw [hb] at h; exact Err.noConfusion (Except.error.inj h)
    | num n => rw [hb] at h; exact Err.noConfusion (Except.error.inj h)
    | str s => rw [hb] at h; exact Err.noConfusion (Except.error.inj h)
    | arr xs =>
      rw [hb] at h
      rcases buildFuncs_error xs [] _ h with ⟨k, hk⟩ | hk <;> exact Err.noConfusion hk
    | obj kvs =>
      rw [hb] at h
      cases kvs with
      | nil => exact Except.noConfusion h
      | cons kv rest => exact Err.noConfusion (Except.error.inj h)
  · refine iff_of_true ?_ hok
    unfold AQL.functionsHandler
    rw [if_neg hok]

theorem createFunctionHandler_error_iff (res : Response) :
    AQL.createFunctionHandler res = .error (.AQLFunctionCreateError res)
      ↔ ¬(res.status_code = 200 ∨ res.status_code = 201) := by
  by_cases hok : res.status_code = 200 ∨ res.status_code = 201
  · refine iff_of_false ?_ (by simp [hok])
    intro h
    unfold AQL.createFunctionHandler at h
    rw [if_pos hok] at h
    rcases map_dictIndex_error _ _ _ _ h with h3 | h3 <;> exact Err.noConfusion h3
  · refine iff_of_true ?_ hok
    unfold AQL.createFunctionHandler
    rw [if_neg hok]

theorem deleteFunctionHandler_error_iff (res : Response) :
    AQL.deleteFunctionHandler false res = .error (.AQLFunctionDeleteError res)
      ↔ res.status_code ∉ HTTP_OK := by
  by_cases hok : res.status_code ∈ HTTP_OK
  · refine iff_of_false ?_ (by simp [hok])
    intro h
    unfold AQL.deleteFunctionHandler at h
    split at h
    · next hcond => exact absurd hok hcond.1
    · rcases map_dictIndex_error _ _ _ _ h with h3 | h3 <;> exact Err.noConfusion h3
  · refine iff_of_true ?_ hok
    unfold AQL.deleteFunctionHandler
    split
    · rfl
    · next hcond => exact absurd ⟨hok, by simp⟩ hcond

theorem propertiesHandler_error_iff (res : Response) :
    AQLQueryCache.propertiesHandler res = .error (.AQLCacheGetPropertiesError res)
      ↔ res.status_code ∉ HTTP_OK := by
  by_cases hok : res.status_code ∈ HTTP_OK
  · refine iff_of_false ?_ (by simp [hok])
    intro h
    unfold AQLQueryCache.propertiesHandler at h
    rw [if_pos hok] at h
    cases hm : dictIndex res.body "mode" with
    | error e2 =>
      rw [hm] at h
      have h2 : (Except.error e2 : Except Err Json)
          = .error (.AQLCacheGetPropertiesError res) := h
      obtain rfl := Except.error.inj h2
      rcases dictIndex_error _ _ _ hm with h3 | h3 <;> exact Err.noConfusion h3
    | ok m =>
      rw [hm] at h
      cases hx : dictIndex res.body "maxResults" with
      | error e2 =>
        rw [hx] at h
        have h2 : (Except.error e2 : Except Err Json)
            = .error (.AQLCacheGetPropertiesError res) := h
        obtain rfl := Except.error.inj h2
        rcases dictIndex_error _ _ _ hx with h3 | h3 <;> exact Err.noConfusion h3
      | ok x => rw [hx] at h; exact Except.noConfusion h
  · refine iff_of_true ?_ hok
    unfold AQLQueryCache.propertiesHandler
    rw [if_neg hok]

theorem configureHandler_error_iff (res : Response) :
    AQLQueryCache.configureHandler res = .error (.AQLCacheConfigureError res)
      ↔ res.status_code ∉ HTTP_OK := by
  by_cases hok : res.status_code ∈ HTTP_OK
  · refine iff_of_false ?_ (by simp [hok])
    intro h
    unfold AQLQueryCache.configureHandler at h
    rw [if_pos hok] at h
    cases hm : dictIndex res.body "mode" with
    | error e2 =>
      rw [hm] at h
      have h2 : (Except.error e2 : Except Err Json)
          = .error (.AQLCacheConfigureError res) := h
      obtain rfl := Except.error.inj h2
      rcases dictIndex_error _ _ _ hm with h3 | h3 <;> exact Err.noConfusion h3
    | ok m =>
      rw [hm] at h
      cases hx : dictIndex res.body "maxResults" with
      | error e2 =>
        rw [hx] at h
        have h2 : (Except.error e2 : Except Err Json)
            = .error (.AQLCacheConfigureError res) := h
        obtain rfl := Except.error.inj h2
        rcases dictIndex_error _ _ _ hx with h3 | h3 <;> exact Err.noConfusion h3
      | ok x => rw [hx] at h; exact Except.noConfusion h
  · refine iff_of_true ?_ hok
    unfold AQLQueryCache.configureHandler
    rw [if_neg hok]

theorem clearHandler_error_iff (res : Response) :
    AQLQueryCache.clearHandler res = .error (.AQLCacheClearError res)
      ↔ res.status_code ∉ HTTP_OK := by
  by_cases hok : res.status_code ∈ HTTP_OK
  · refine iff_of_false ?_ (by simp [hok])
    intro h
    unfold AQLQueryCache.clearHandler at h
    rw [if_pos hok] at h
    rcases map_dictIndex_error _ _ _ _ h with h3 | h3 <;> exact Err.noConfusion h3
  · refine iff_of_true ?_ hok
    unfold AQLQueryCache.clearHandler
    rw [if_neg hok]

/-- C6: the create_function handler raises AQLFunctionCreateError exactly
when the status is outside the set of 200 and 201, and on 200/201 returns
the boolean negation of the body's `error` field; every other operation's
handler raises its classified error exactly when the status is outside the
wider fixed success set HTTP_OK of 200 through 206 (delete_function taken
with ignore_missing=False). -/
theorem C6_success_status_sets (res : Response) :
    (AQL.createFunctionHandler res = .error (.AQLFunctionCreateError res)
      ↔ ¬(res.status_code = 200 ∨ res.status_code = 201)) ∧
    (∀ v, (res.status_code = 200 ∨ res.status_code = 201) →
      Json.get? res.body "error" = some v →
      AQL.createFunctionHandler res = .ok (!v.truthy)) ∧
    HTTP_OK = [200, 201, 202, 203, 204, 205, 206] ∧
    (AQL.explainHandler res = .error (.AQLQueryExplainError res)
      ↔ res.status_code ∉ HTTP_OK) ∧
    (AQL.validateHandler res = .error (.AQLQueryValidateError res)
      ↔ res.status_code ∉ HTTP_OK) ∧
    (AQL.executeHandler res = .error (.AQLQueryExecuteError res)
      ↔ res.status_code ∉ HTTP_OK) ∧
    (AQL.functionsHandler res = .error (.AQLFunctionsListError res)
      ↔ res.status_code ∉ HTTP_OK) ∧
    (AQL.deleteFunctionHandler false res = .error (.AQLFunctionDeleteError res)
      ↔ res.status_code ∉ HTTP_OK) ∧
    (AQLQueryCache.propertiesHandler res = .error (.AQLCacheGetPropertiesError res)
      ↔ res.status_code ∉ HTTP_OK) ∧
    (AQLQueryCache.configureHandler res = .error (.AQLCacheConfigureError res)
      ↔ res.status_code ∉ HTTP_OK) ∧
    (AQLQueryCache.clearHandler res = .error (.AQLCacheClearError res)
      ↔ res.status_code ∉ HTTP_OK) := by
  refine ⟨createFunctionHandler_error_iff res, ?_, rfl,
    explainHandler_error_iff res, validateHandler_error_iff res,
    executeHandler_error_iff res, functionsHandler_error_iff res,
    deleteFunctionHandler_error_iff res, propertiesHandler_error_iff res,
    configureHandler_error_iff res, clearHandler_error_iff res⟩
  intro v hok herr
  rcases hok with h2 | h2 <;>
    simp [AQL.createFunctionHandler, h2, dictIndex_eq_ok _ _ _ herr, Except.map]

/-- C6 witness: the statement applied at a concrete 201 response reporting
error=false. -/
theorem C6_success_status_sets_witness :
    (AQL.createFunctionHandler ⟨201, Json.obj [("error", Json.bool false)]⟩
        = .error (.AQLFunctionCreateError ⟨201, Json.obj [("error", Json.bool false)]⟩)
      ↔ ¬((201 : Nat) = 200 ∨ (201 : Nat) = 201)) ∧
    (∀ v, ((201 : Nat) = 200 ∨ (201 : Nat) = 201) →
      Json.get? (Json.obj [("error", Json.bool false)]) "error" = some v →
      AQL.createFunctionHandler ⟨201, Json.obj [("error", Json.bool false)]⟩
        = .ok (!v.truthy)) ∧
    HTTP_OK = [200, 201, 202, 203, 204, 205, 206] ∧
    (AQL.explainHandler ⟨201, Json.obj [("error", Json.bool false)]⟩
        = .error (.AQLQueryExplainError ⟨201, Json.obj [("error", Json.bool false)]⟩)
      ↔ (201 : Nat) ∉ HTTP_OK) ∧
    (AQL.validateHandler ⟨201, Json.obj [("error", Json.bool false)]⟩
        = .error (.AQLQueryValidateError ⟨201, Json.obj [("error", Json.bool false)]⟩)
      ↔ (201 : Nat) ∉ HTTP_OK) ∧
    (AQL.executeHandler ⟨201, Json.obj [("error", Json.bool false)]⟩
        = .error (.AQLQueryExecuteError ⟨201, Json.obj [("error", Json.bool false)]⟩)
      ↔ (201 : Nat) ∉ HTTP_OK) ∧
    (AQL.functionsHandler ⟨201, Json.obj [("error", Json.bool false)]⟩
        = .error (.AQLFunctionsListError ⟨201, Json.obj [("error", Json.bool false)]⟩)
      ↔ (201 : Nat) ∉ HTTP_OK) ∧
    (AQL.deleteFunctionHandler false ⟨201, Json.obj [("error", Json.bool false)]⟩
        = .error (.AQLFunctionDeleteError ⟨201, Json.obj [("error", Json.bool false)]⟩)
      ↔ (201 : Nat) ∉ HTTP_OK) ∧
    (AQLQueryCache.propertiesHandler ⟨201, Json.obj [("error", Json.bool false)]⟩
        = .error (.AQLCacheGetPropertiesError
            ⟨201, Json.obj [("error", Json.bool false)]⟩)
      ↔ (201 : Nat) ∉ HTTP_OK) ∧
    (AQLQueryCache.configureHandler ⟨201, Json.obj [("error", Json.bool false)]⟩
        = .error (.AQLCacheConfigureError ⟨201, Json.obj [("error", Json.bool false)]⟩)
      ↔ (201 : Nat) ∉ HTTP_OK) ∧
    (AQLQueryCache.clearHandler ⟨201, Json.obj [("error", Json.bool false)]⟩
        = .error (.AQLCacheClearError ⟨201, Json.obj [("error", Json.bool false)]⟩)
      ↔ (201 : Nat) ∉ HTTP_OK) :=
  C6_success_status_sets ⟨201, Json.obj [("error", Json.bool false)]⟩

/-! ## Mapping lemmas for the functions handler -/

theorem jeq_str_right (x : Json) (k : String) (h : jeq x (.str k) = true) :
    x = .str k := by
  cases x with
  | str s =>
    have hs : s = k := by simpa [jeq] using h
    rw [hs]
  | null => exact absurd h (by simp [jeq])
  | bool b => exact absurd h (by simp [jeq])
  | num n => exact absurd h (by simp [jeq])
  | arr xs => exact absurd h (by simp [jeq])
  | obj kvs => exact absurd h (by simp [jeq])

theorem mget_dictInsert_str (m : List (Json × Json)) (k n : String) (v : Json) :
    AQL.mget (AQL.dictInsert m (.str k) v) (.str n)
      = if k = n then some v else AQL.mget m (.str n) := by
  induction m with
  | nil =>
    by_cases h : k = n
    · subst h
      simp [AQL.dictInsert, AQL.mget, jeq]
    · simp [AQL.dictInsert, AQL.mget, jeq, h]
  | cons kv rest ih =>
    obtain ⟨k1, v1⟩ := kv
    by_cases hk : jeq k1 (.str k) = true
    · obtain rfl := jeq_str_right k1 k hk
      by_cases h : k = n
      · subst h
        simp [AQL.dictInsert, AQL.mget, jeq]
      · simp [AQL.dictInsert, AQL.mget, jeq, h]
    · by_cases hn : jeq k1 (.str n) = true
      · have hkn : k ≠ n := by
          intro hkn
          subst hkn
          exact hk hn
        simp [AQL.dictInsert, AQL.mget, hk, hn, hkn]
      · have hcons : AQL.dictInsert ((k1, v1) :: rest) (Json.str k) v
            = (k1, v1) :: AQL.dictInsert rest (Json.str k) v := by
          simp [AQL.dictInsert, hk]
        have hskip1 : AQL.mget ((k1, v1) :: AQL.dictInsert rest (Json.str k) v)
              (Json.str n)
            = AQL.mget (AQL.dictInsert rest (Json.str k) v) (Json.str n) := by
          simp only [AQL.mget]
          rw [List.find?_cons_of_neg _ (by simpa using hn)]
        have hskip2 : AQL.mget ((k1, v1) :: rest) (Json.str n)
            = AQL.mget rest (Json.str n) := by
          simp only [AQL.mget]
          rw [List.find?_cons_of_neg _ (by simpa using hn)]
        rw [hcons, hskip1, ih, hskip2]

theorem mget_strKeys (kvs : List (String × Json)) (k : String) :
    AQL.mget (kvs.map (fun kv => (Json.str kv.1, kv.2))) (.str k) = getKey kvs k := by
  induction kvs with
  | nil => rfl
  | cons kv rest ih =>
    by_cases h : kv.1 = k
    · simp [AQL.mget, jeq, getKey, h, List.find?_cons_of_pos]
    · simp only [List.map_cons, AQL.mget, getKey, if_neg h] at ih ⊢
      rw [List.find?_cons_of_neg _ (by simpa [jeq] using h)]
      exact ih

theorem funcStep_obj (acc : List (Json × Json)) (kvs : List (String × Json))
    (nm : String) (cd : Json)
    (hname : getKey kvs "name" = some (.str nm))
    (hcode : getKey kvs "code" = some cd) :
    AQL.funcStep acc (.obj kvs) = .ok (AQL.dictInsert acc (.str nm) cd) := by
  have h1 : AQL.mget (kvs.map (fun kv => (Json.str kv.1, kv.2))) (.str "name")
      = some (.str nm) := by rw [mget_strKeys]; exact hname
  have h2 : AQL.mget (kvs.map (fun kv => (Json.str kv.1, kv.2))) (.str "code")
      = some cd := by rw [mget_strKeys]; exact hcode
  simp [AQL.funcStep, AQL.toDict, h1, h2]

theorem buildFuncs_ok (fs : List Json) (ps : List (String × Json))
    (hR : List.Forall₂ (fun f p => (∃ kvs, f = Json.obj kvs) ∧
      Json.get? f "name" = some (.str p.1) ∧ Json.get? f "code" = some p.2) fs ps) :
    ∀ acc, AQL.buildFuncs acc fs
      = .ok (ps.foldl (fun a p => AQL.dictInsert a (.str p.1) p.2) acc) := by
  induction hR with
  | nil => intro acc; rfl
  | @cons f p fs2 ps2 hfp hrest ih =>
    intro acc
    obtain ⟨⟨kvs, rfl⟩, hname, hcode⟩ := hfp
    have hstep : AQL.funcStep acc (.obj kvs)
        = .ok (AQL.dictInsert acc (.str p.1) p.2) :=
      funcStep_obj acc kvs p.1 p.2 hname hcode
    rw [List.foldl_cons]
    unfold AQL.buildFuncs
    rw [hstep]
    exact ih _

theorem mget_foldl_insert (ps : List (String × Json)) :
    ∀ (acc : List (Json × Json)) (n : String),
    AQL.mget (ps.foldl (fun a p => AQL.dictInsert a (.str p.1) p.2) acc) (.str n)
      = match ps.reverse.find? (fun p => p.1 == n) with
        | some q => some q.2
        | none => AQL.mget acc (.str n) := by
  induction ps with
  | nil => intro acc n; rfl
  | cons p ps ih =>
    intro acc n
    rw [List.foldl_cons, ih]
    rw [List.reverse_cons, List.find?_append]
    cases hfind : ps.reverse.find? (fun p => p.1 == n) with
    | some q => simp
    | none =>
      rw [mget_dictInsert_str]
      by_cases hn : p.1 = n
      · have hb : (p.1 == n) = true := by simpa using hn
        simp [List.find?, hb, hn]
      · have hb : (p.1 == n) = false := by simpa using hn
        simp [List.find?, hb, hn]

/-- C10: on a success status the functions handler returns an empty mapping
when the body is empty or absent (null, empty list or empty dict) instead of
failing; for a list body of function objects it builds the name-to-code
mapping from each element, a later element overwriting an earlier one that
has the same name (the lookup of each name yields the code of the last
element carrying it). -/
theorem C10_functions_mapping (res : Response) (fs : List Json)
    (ps : List (String × Json))
    (hok : res.status_code ∈ HTTP_OK) (hbody : res.body = Json.arr fs)
    (hR : List.Forall₂ (fun f p => (∃ kvs, f = Json.obj kvs) ∧
      Json.get? f "name" = some (.str p.1) ∧ Json.get? f "code" = some p.2) fs ps) :
    (∀ res2 : Response, res2.status_code ∈ HTTP_OK →
      (res2.body = Json.null ∨ res2.body = Json.arr [] ∨ res2.body = Json.obj []) →
      AQL.functionsHandler res2 = .ok []) ∧
    (∃ m, AQL.functionsHandler res = .ok m ∧
      ∀ n : String, AQL.mget m (.str n)
        = (ps.reverse.find? (fun p => p.1 == n)).map (fun p => p.2)) := by
  constructor
  · intro res2 hok2 hb2
    obtain ⟨sc2, b2⟩ := res2
    rcases hb2 with hb2 | hb2 | hb2 <;> cases hb2 <;>
      simp [AQL.functionsHandler, hok2, Json.truthy, AQL.buildFuncs]
  · refine ⟨ps.foldl (fun a p => AQL.dictInsert a (.str p.1) p.2) [], ?_, ?_⟩
    · obtain ⟨sc, b⟩ := res
      cases hbody
      cases fs with
      | nil =>
        cases hR
        simp [AQL.functionsHandler, hok, Json.truthy]
      | cons f fs2 =>
        have hb := buildFuncs_ok _ _ hR []
        simpa [AQL.functionsHandler, hok, Json.truthy] using hb
    · intro n
      rw [mget_foldl_insert]
      cases hfind : ps.reverse.find? (fun p => p.1 == n) <;> simp [AQL.mget]

/-- C10 witness: the statement applied at a concrete success response whose
list carries two functions of the same name; the lookup yields the later
code. -/
theorem C10_functions_mapping_witness :
    (∀ res2 : Response, res2.status_code ∈ HTTP_OK →
      (res2.body = Json.null ∨ res2.body = Json.arr [] ∨ res2.body = Json.obj []) →
      AQL.functionsHandler res2 = .ok []) ∧
    (∃ m, AQL.functionsHandler
        ⟨200, Json.arr [Json.obj [("name", Json.str "a"), ("code", Json.str "c1")],
          Json.obj [("name", Json.str "a"), ("code", Json.str "c2")]]⟩ = .ok m ∧
      ∀ n : String, AQL.mget m (.str n)
        = (([("a", Json.str "c1"), ("a", Json.str "c2")] :
            List (String × Json)).reverse.find? (fun p => p.1 == n)).map
              (fun p => p.2)) :=
  C10_functions_mapping
    ⟨200, Json.arr [Json.obj [("name", Json.str "a"), ("code", Json.str "c1")],
      Json.obj [("name", Json.str "a"), ("code", Json.str "c2")]]⟩
    [Json.obj [("name", Json.str "a"), ("code", Json.str "c1")],
      Json.obj [("name", Json.str "a"), ("code", Json.str "c2")]]
    [("a", Json.str "c1"), ("a", Json.str "c2")]
    (by decide) rfl
    (List.Forall₂.cons ⟨⟨_, rfl⟩, rfl, rfl⟩
      (List.Forall₂.cons ⟨⟨_, rfl⟩, rfl, rfl⟩ List.Forall₂.nil))
